import Mathlib

/-!
Verification of the ChainBridge-Swap atomic swap coordination engine.

The repository ships a React/TypeScript presentation layer
(frontend/src/types/swap.ts, frontend/src/api/client.ts,
frontend/src/components/*) together with documentation of the FastAPI
backend (README, CONTRIBUTING.md).  The TypeScript data model and API
client are embedded directly from the source; the backend engine
(state machine controller, registry, secret/hashlock manager, timelock
policy), whose Python sources are not in the repository snapshot, is
modelled from the specification where a claim needs it, with each such
definition marked `Modelled from the spec:`.
-/

namespace ChainBridge

/-- Status union of an atomic swap offer, transcribed from the
TypeScript type SwapStatus in frontend/src/types/swap.ts: the eight
string literals of the union become eight constructors. -/
inductive SwapStatus where
  | offered
  | accepted
  | initiatorLocked
  | acceptorLocked
  | initiatorClaimed
  | completed
  | refunded
  | cancelled
deriving DecidableEq, Repr, Fintype

/-- Asset identifiers, transcribed from the TypeScript union
`btc | depix` used throughout frontend/src/types/swap.ts. -/
inductive Asset where
  | btc
  | depix
deriving DecidableEq, Repr, Fintype

/-- The listing of all SwapStatus values in the order they appear in
the TypeScript union type. -/
def swapStatusValues : List SwapStatus :=
  [.offered, .accepted, .initiatorLocked, .acceptorLocked,
   .initiatorClaimed, .completed, .refunded, .cancelled]

/-- Terminal states per spec section 4.1: completed, refunded, cancelled. -/
def SwapStatus.isTerminal : SwapStatus → Bool
  | .completed => true
  | .refunded => true
  | .cancelled => true
  | _ => false

/-- The transition graph of spec section 4.1 as an edge predicate:
the main chain offered → accepted → initiator_locked → acceptor_locked
→ initiator_claimed → completed plus the side branches
offered → cancelled and \x7binitiator_locked, acceptor_locked\x7d → refunded. -/
def legalEdge : SwapStatus → SwapStatus → Bool
  | .offered, .accepted => true
  | .accepted, .initiatorLocked => true
  | .initiatorLocked, .acceptorLocked => true
  | .acceptorLocked, .initiatorClaimed => true
  | .initiatorClaimed, .completed => true
  | .offered, .cancelled => true
  | .initiatorLocked, .refunded => true
  | .acceptorLocked, .refunded => true
  | _, _ => false

/-- Projection of a swap offer visible to API consumers, transcribed
field by field from the TypeScript interface AtomicSwapOffer in
frontend/src/types/swap.ts (numbers modelled as rationals for amounts
and integers for timestamps; nullable fields become Option). -/
structure OfferView where
  swap_id : String
  status : SwapStatus
  initiator_asset : Asset
  initiator_amount : Rat
  acceptor_asset : Asset
  acceptor_amount : Rat
  initiator_address : String
  acceptor_address : Option String
  hashlock : List (Fin 256)
  initiator_timelock : Int
  acceptor_timelock : Int
  initiator_txid : Option String
  acceptor_txid : Option String
  created_at : Int
  accepted_at : Option Int
deriving DecidableEq, Repr

/-- Offer-creation request body, transcribed from the TypeScript
interface CreateOfferRequest in frontend/src/types/swap.ts. -/
structure CreateOfferRequest where
  initiator_asset : Asset
  initiator_amount : Rat
  acceptor_asset : Asset
  acceptor_amount : Rat
  initiator_address : String
deriving DecidableEq, Repr

/-- Modelled from the spec: the backend Secret/Hashlock Manager
(backend/htlc, generate_secret) is not in the repository snapshot.
Per spec section 4.2 a secret is a fixed-length byte string
(32 bytes of entropy), modelled as a list of bytes. -/
abbrev Secret := List (Fin 256)

/-- Hashlock values share the byte-string representation of secrets. -/
abbrev Hashlock := List (Fin 256)

/-- Bytewise component of the idealised commitment, a bijection on bytes. -/
def hashByte (b : Fin 256) : Fin 256 := b + 173

/-- Modelled from the spec: the backend commit (create_hashlock) is not
in the repository snapshot.  Per spec section 4.2 it is a one-way
cryptographic hash that is collision- and preimage-resistant; collision
resistance is idealised as injectivity, realised here by a bytewise
bijection followed by a reversal. -/
def commit (s : Secret) : Hashlock := (s.map hashByte).reverse

/-- Modelled from the spec: verify(secret, hashlock) recomputes the
commitment and compares (spec section 4.2). -/
def verify (s : Secret) (h : Hashlock) : Bool := commit s == h

/-- Modelled from the spec: error taxonomy of spec section 7. -/
inductive SwapError where
  | notFound
  | illegalTransition
  | validationError
  | timelockNotExpired
  | secretMismatch
  | ledgerAdapterFailure
deriving DecidableEq, Repr

/-- Modelled from the spec: the Ledger Adapter capability calls of spec
section 4.4 that the controller issues (lock, claim, refund); the
balance query is not used by any controller transition. -/
inductive LedgerCall where
  | lock (asset : Asset) (amount : Rat) (hashlock : Hashlock) (timelock : Int)
  | claim (asset : Asset) (secret : Secret)
  | refund (asset : Asset)
deriving DecidableEq, Repr

/-- Modelled from the spec: the capabilities an operation invocation
carries — the caller-supplied clock (spec section 5) and the injected
ledger adapter returning a confirmed transaction reference
(spec section 4.4). -/
structure Ctx where
  now : Int
  adapter : LedgerCall → String

/-- Modelled from the spec: the engine-internal swap record of spec
section 3 — the SwapOffer fields plus the internally stored secret. -/
structure SwapRecord where
  swap_id : String
  status : SwapStatus
  initiator_asset : Asset
  initiator_amount : Rat
  acceptor_asset : Asset
  acceptor_amount : Rat
  initiator_address : String
  acceptor_address : Option String
  hashlock : Hashlock
  secret : Secret
  initiator_timelock : Int
  acceptor_timelock : Int
  initiator_txid : Option String
  acceptor_txid : Option String
  created_at : Int
  accepted_at : Option Int
deriving DecidableEq, Repr

/-- Projection of an engine record to the API view: every AtomicSwapOffer
field is copied and the secret is dropped (spec sections 3 and 6: all
responses are the current SwapOffer projection unless noted). -/
def projection (rec : SwapRecord) : OfferView :=
  { swap_id := rec.swap_id
    status := rec.status
    initiator_asset := rec.initiator_asset
    initiator_amount := rec.initiator_amount
    acceptor_asset := rec.acceptor_asset
    acceptor_amount := rec.acceptor_amount
    initiator_address := rec.initiator_address
    acceptor_address := rec.acceptor_address
    hashlock := rec.hashlock
    initiator_timelock := rec.initiator_timelock
    acceptor_timelock := rec.acceptor_timelock
    initiator_txid := rec.initiator_txid
    acceptor_txid := rec.acceptor_txid
    created_at := rec.created_at
    accepted_at := rec.accepted_at }

/-- Modelled from the spec: the Timelock Policy compute(now, duration)
of spec section 4.3 — acceptor_timelock = now + duration/2,
initiator_timelock = now + duration, rejecting a non-positive duration;
the result pair is (initiator_timelock, acceptor_timelock). -/
def computeTimelocks (now duration : Int) : Except SwapError (Int × Int) :=
  if duration ≤ 0 then .error .validationError
  else .ok (now + duration, now + duration / 2)

/-- Modelled from the spec: the seven non-creation controller
operations of spec section 4.1, with their per-operation arguments. -/
inductive Action where
  | acceptOffer (acceptorAddress : String)
  | lockInitiator
  | lockAcceptor
  | claimInitiator
  | claimAcceptor
  | cancelOffer
  | refund
deriving DecidableEq, Repr

/-- Modelled from the spec: the status precondition column of the
operation table in spec section 4.1. -/
def statusAllowed : Action → SwapStatus → Bool
  | .acceptOffer _, s => s = .offered
  | .lockInitiator, s => s = .accepted
  | .lockAcceptor, s => s = .initiatorLocked
  | .claimInitiator, s => s = .acceptorLocked
  | .claimAcceptor, s => s = .initiatorClaimed
  | .cancelOffer, s => s = .offered
  | .refund, s => s = .initiatorLocked || s = .acceptorLocked

/-- Modelled from the spec: the timelock governing a refund attempt —
the lock placed with the initiator leg carries initiator_timelock and
the acceptor leg acceptor_timelock (spec sections 4.1 and 5, lazy
expiry evaluation). -/
def relevantTimelock (rec : SwapRecord) : Int :=
  if rec.status = .initiatorLocked then rec.initiator_timelock
  else rec.acceptor_timelock

/-- Modelled from the spec: operation responses of spec section 6 —
the SwapOffer projection for most operations, the
status/secret/swap_id triple for claim-initiator, and the
status/swap_id pair for claim-acceptor. -/
inductive OpResponse where
  | offerView (view : OfferView)
  | claimInitiatorResponse (status : SwapStatus) (secret : Secret) (swapId : String)
  | claimAcceptorResponse (status : SwapStatus) (swapId : String)
deriving DecidableEq, Repr

/-- The secret value contained in a response, if any. -/
def responseSecret : OpResponse → Option Secret
  | .claimInitiatorResponse _ s _ => some s
  | _ => none

/-- Modelled from the spec: the State Machine Controller of spec
section 4.1 acting on a single registry record — each operation checks
its status precondition (illegal-transition failure otherwise, before
any ledger call), validates its inputs, performs its ledger
side-effects through the adapter, and produces the updated record,
the response, and the list of ledger calls made. -/
def stepRecord (ctx : Ctx) (act : Action) (rec : SwapRecord) :
    Except SwapError (SwapRecord × OpResponse) × List LedgerCall :=
  match act with
  | .acceptOffer addr =>
    if rec.status = .offered then
      if addr = "" ∨ addr = rec.initiator_address then (.error .validationError, [])
      else
        let rec' := { rec with
          status := .accepted
          acceptor_address := some addr
          accepted_at := some ctx.now }
        (.ok (rec', .offerView (projection rec')), [])
    else (.error .illegalTransition, [])
  | .lockInitiator =>
    if rec.status = .accepted then
      let call := LedgerCall.lock rec.initiator_asset rec.initiator_amount
        rec.hashlock rec.initiator_timelock
      let rec' := { rec with
        status := .initiatorLocked
        initiator_txid := some (ctx.adapter call) }
      (.ok (rec', .offerView (projection rec')), [call])
    else (.error .illegalTransition, [])
  | .lockAcceptor =>
    if rec.status = .initiatorLocked then
      let call := LedgerCall.lock rec.acceptor_asset rec.acceptor_amount
        rec.hashlock rec.acceptor_timelock
      let rec' := { rec with
        status := .acceptorLocked
        acceptor_txid := some (ctx.adapter call) }
      (.ok (rec', .offerView (projection rec')), [call])
    else (.error .illegalTransition, [])
  | .claimInitiator =>
    if rec.status = .acceptorLocked then
      let call := LedgerCall.claim rec.acceptor_asset rec.secret
      let rec' := { rec with status := .initiatorClaimed }
      (.ok (rec', .claimInitiatorResponse .initiatorClaimed rec.secret rec.swap_id), [call])
    else (.error .illegalTransition, [])
  | .claimAcceptor =>
    if rec.status = .initiatorClaimed then
      let call := LedgerCall.claim rec.initiator_asset rec.secret
      let rec' := { rec with status := .completed }
      (.ok (rec', .claimAcceptorResponse .completed rec.swap_id), [call])
    else (.error .illegalTransition, [])
  | .cancelOffer =>
    if rec.status = .offered then
      let rec' := { rec with status := .cancelled }
      (.ok (rec', .offerView (projection rec')), [])
    else (.error .illegalTransition, [])
  | .refund =>
    if rec.status = .initiatorLocked then
      if ctx.now > rec.initiator_timelock then
        let rec' := { rec with status := .refunded }
        (.ok (rec', .offerView (projection rec')), [.refund rec.initiator_asset])
      else (.error .timelockNotExpired, [])
    else if rec.status = .acceptorLocked then
      if ctx.now > rec.acceptor_timelock then
        let rec' := { rec with status := .refunded }
        (.ok (rec', .offerView (projection rec')),
         [.refund rec.initiator_asset, .refund rec.acceptor_asset])
      else (.error .timelockNotExpired, [])
    else (.error .illegalTransition, [])

/-- Modelled from the spec: the create_offer operation of spec
section 4.1 — validate the request (positive amounts, distinct assets,
non-empty address per the ValidationError taxonomy of spec section 7),
commit the freshly generated secret into the hashlock, compute both
timelocks from the policy, and produce the record at status offered. -/
def createOffer (swapId : String) (secret : Secret) (now duration : Int)
    (req : CreateOfferRequest) : Except SwapError SwapRecord :=
  if req.initiator_amount ≤ 0 ∨ req.acceptor_amount ≤ 0 then .error .validationError
  else if req.initiator_asset = req.acceptor_asset then .error .validationError
  else if req.initiator_address = "" then .error .validationError
  else
    match computeTimelocks now duration with
    | .error e => .error e
    | .ok (itl, atl) =>
      .ok { swap_id := swapId
            status := .offered
            initiator_asset := req.initiator_asset
            initiator_amount := req.initiator_amount
            acceptor_asset := req.acceptor_asset
            acceptor_amount := req.acceptor_amount
            initiator_address := req.initiator_address
            acceptor_address := none
            hashlock := commit secret
            secret := secret
            initiator_timelock := itl
            acceptor_timelock := atl
            initiator_txid := none
            acceptor_txid := none
            created_at := now
            accepted_at := none }

/-- Modelled from the spec: the Swap Offer Registry of spec
section 4.5, a store keyed by swap_id. -/
def Registry := String → Option SwapRecord

/-- Pointwise update of the registry at one key. -/
def Registry.set (k : String) (v : SwapRecord) (reg : Registry) : Registry :=
  fun k' => if k' = k then some v else reg k'

/-- An operation invocation: the identifying swap_id plus the action. -/
structure Op where
  swapId : String
  action : Action
deriving Repr

/-- Outcome of one operation against the registry: the response, the
registry after the invocation, and the ledger calls performed. -/
structure ApplyResult where
  response : Except SwapError OpResponse
  registry : Registry
  calls : List LedgerCall

/-- Modelled from the spec: one controller invocation routed through
the registry (spec sections 4.1 and 4.5) — unknown swap_id fails with
not-found; otherwise the record steps and, only on success, the new
state is committed atomically via compare_and_transition. -/
def applyOp (ctx : Ctx) (op : Op) (reg : Registry) : ApplyResult :=
  match reg op.swapId with
  | none => ⟨.error .notFound, reg, []⟩
  | some rec =>
    match stepRecord ctx op.action rec with
    | (.error e, calls) => ⟨.error e, reg, calls⟩
    | (.ok (rec', resp), calls) => ⟨.ok resp, Registry.set op.swapId rec' reg, calls⟩

/-- Record well-formedness maintained by the engine: the stored
hashlock is the commitment of the stored secret and the secret is
non-empty. -/
def WellFormed (rec : SwapRecord) : Prop :=
  rec.hashlock = commit rec.secret ∧ rec.secret ≠ []

/-- One method of the presentation layer's ApiClient: the method name,
the HTTP verb used, and the request path template (path parameters
written with a leading colon). -/
structure ClientEndpoint where
  clientMethod : String
  httpMethod : String
  path : String
deriving DecidableEq, Repr

/-- The non-atomic methods of the ApiClient class in
frontend/src/api/client.ts, transcribed in source order: root info,
health, balances, and the legacy swap interface. -/
def apiClientLegacyEndpoints : List ClientEndpoint :=
  [⟨"getRootInfo", "GET", "/"⟩,
   ⟨"getHealth", "GET", "/health"⟩,
   ⟨"getBalances", "GET", "/balances"⟩,
   ⟨"createSwap", "POST", "/swaps"⟩,
   ⟨"getSwap", "GET", "/swaps/:swap_id"⟩,
   ⟨"listSwaps", "GET", "/swaps"⟩,
   ⟨"redeemSwap", "POST", "/swaps/:swap_id/redeem"⟩,
   ⟨"refundSwap", "POST", "/swaps/:swap_id/refund"⟩]

/-- The atomic swap methods of the ApiClient class in
frontend/src/api/client.ts (lines 90-141), transcribed in source
order. -/
def apiClientAtomicEndpoints : List ClientEndpoint :=
  [⟨"createOffer", "POST", "/atomic/offers"⟩,
   ⟨"listOffers", "GET", "/atomic/offers"⟩,
   ⟨"listOpenOffers", "GET", "/atomic/offers/open"⟩,
   ⟨"getOffer", "GET", "/atomic/offers/:swap_id"⟩,
   ⟨"acceptOffer", "POST", "/atomic/offers/:swap_id/accept"⟩,
   ⟨"lockInitiator", "POST", "/atomic/offers/:swap_id/lock-initiator"⟩,
   ⟨"lockAcceptor", "POST", "/atomic/offers/:swap_id/lock-acceptor"⟩,
   ⟨"claimInitiator", "POST", "/atomic/offers/:swap_id/claim-initiator"⟩,
   ⟨"claimAcceptor", "POST", "/atomic/offers/:swap_id/claim-acceptor"⟩]

/-- Every method of the ApiClient class. -/
def apiClientEndpoints : List ClientEndpoint :=
  apiClientLegacyEndpoints ++ apiClientAtomicEndpoints

/-- A REST endpoint as documented: HTTP verb and path template. -/
structure DocEndpoint where
  httpMethod : String
  path : String
deriving DecidableEq, Repr

/-- The atomic swap endpoints documented in the repository README
(section Atomic Swap Endpoints), transcribed in document order. -/
def readmeAtomicEndpoints : List DocEndpoint :=
  [⟨"POST", "/atomic/offers"⟩,
   ⟨"GET", "/atomic/offers"⟩,
   ⟨"GET", "/atomic/offers/open"⟩,
   ⟨"GET", "/atomic/offers/:swap_id"⟩,
   ⟨"POST", "/atomic/offers/:swap_id/accept"⟩,
   ⟨"POST", "/atomic/offers/:swap_id/lock-initiator"⟩,
   ⟨"POST", "/atomic/offers/:swap_id/lock-acceptor"⟩,
   ⟨"POST", "/atomic/offers/:swap_id/claim-initiator"⟩,
   ⟨"POST", "/atomic/offers/:swap_id/claim-acceptor"⟩]

/-- A path template names a cancel operation when it ends in the
segment /cancel. -/
def pathLastIsCancel (p : String) : Bool :=
  p.data.reverse.take 7 == "/cancel".data.reverse

/-- A path or method names a cancel operation when the path's last
segment is cancel or the client method is the would-be cancelOffer. -/
def ClientEndpoint.isCancel (e : ClientEndpoint) : Bool :=
  pathLastIsCancel e.path || e.clientMethod = "cancelOffer"

/-- JavaScript number values as far as CreateOffer.tsx inspects them:
parseFloat yields NaN, an infinity, or a finite value (modelled as a
rational; the component only tests finiteness and order). -/
inductive JsNum where
  | nan
  | posInf
  | negInf
  | finite (q : Rat)
deriving DecidableEq, Repr

/-- Number.isFinite as used in CreateOffer.tsx. -/
def JsNum.isFinite : JsNum → Bool
  | .finite _ => true
  | _ => false

/-- The JavaScript comparison `a <= 0`: false for NaN and positive
infinity, true for negative infinity. -/
def jsLeZero : JsNum → Bool
  | .nan => false
  | .posInf => false
  | .negInf => true
  | .finite q => q ≤ 0

/-- The JavaScript comparison `a > b` against a finite balance b:
false for NaN and negative infinity, true for positive infinity. -/
def jsGtRat : JsNum → Rat → Bool
  | .nan, _ => false
  | .posInf, _ => true
  | .negInf, _ => false
  | .finite q, b => b < q

/-- The derived flag initiatorInsufficient of CreateOffer.tsx
(lines 89-90): the balance has been fetched, the parsed offering
amount is finite, and it exceeds the selected asset's balance. -/
def initiatorInsufficient (selectedInitiatorBalance : Option Rat)
    (initiatorAmount : JsNum) : Bool :=
  match selectedInitiatorBalance with
  | none => false
  | some b => initiatorAmount.isFinite && jsGtRat initiatorAmount b

/-- Outcome of one handleSubmit run in CreateOffer.tsx: either an early
return that sets an error message, or the apiClient.createOffer call. -/
inductive SubmitOutcome where
  | errorReturn (message : String)
  | createOfferCall (initiatorAmount acceptorAmount : JsNum)
deriving DecidableEq, Repr

/-- The guard sequence of handleSubmit in CreateOffer.tsx
(lines 110-139): reject a non-finite or non-positive offering amount,
then a non-finite or non-positive wanted amount, then an offering
amount exceeding the fetched balance; only past all three guards is
apiClient.createOffer invoked. -/
def handleSubmit (initiatorAmount acceptorAmount : JsNum)
    (selectedInitiatorBalance : Option Rat)
    (initiatorAssetLabel : String) : SubmitOutcome :=
  if !initiatorAmount.isFinite || jsLeZero initiatorAmount then
    .errorReturn "Please enter a valid amount you are offering"
  else if !acceptorAmount.isFinite || jsLeZero acceptorAmount then
    .errorReturn "Please enter a valid amount you want"
  else if initiatorInsufficient selectedInitiatorBalance initiatorAmount then
    .errorReturn ("Insufficient " ++ initiatorAssetLabel ++ " balance for this offer amount")
  else
    .createOfferCall initiatorAmount acceptorAmount

/-- A 32-byte sample secret used as witness input. -/
def sampleSecret : Secret := List.replicate 32 (7 : Fin 256)

/-- A sample well-formed swap record at status offered, trading btc
against depix between two distinct addresses. -/
def sampleOffer : SwapRecord :=
  { swap_id := "swap-1"
    status := .offered
    initiator_asset := .btc
    initiator_amount := 1
    acceptor_asset := .depix
    acceptor_amount := 50
    initiator_address := "addrA"
    acceptor_address := none
    hashlock := commit sampleSecret
    secret := sampleSecret
    initiator_timelock := 1600
    acceptor_timelock := 1300
    initiator_txid := none
    acceptor_txid := none
    created_at := 1000
    accepted_at := none }

/-- The sample record moved to a given status. -/
def sampleAt (st : SwapStatus) : SwapRecord := { sampleOffer with status := st }

/-- A sample invocation context whose clock is past both timelocks. -/
def sampleCtx : Ctx := ⟨2000, fun _ => "tx-ref"⟩

/-- A sample invocation context whose clock is before both timelocks. -/
def ctxEarly : Ctx := ⟨1200, fun _ => "tx-ref"⟩

/-- A sample registry holding the sample offer under its swap_id. -/
def sampleRegistry : Registry :=
  fun k => if k = "swap-1" then some sampleOffer else none

/-- C4: for every generated secret s, verify(s, commit(s)) returns
true, and for every distinct s', verify(s', commit(s)) returns false —
the secret/hashlock round-trip has no false positives and no false
negatives. -/
theorem secret_hashlock_roundtrip (s s' : Secret) :
    verify s (commit s) = true ∧ (s' ≠ s → verify s' (commit s) = false) := by
  have hbyte : Function.Injective hashByte := fun a b hab => by
    simpa [hashByte] using add_left_injective (173 : Fin 256) hab
  have hinj : Function.Injective commit := fun a b hab => by
    have h1 := List.reverse_injective hab
    exact List.map_injective_iff.mpr hbyte h1
  refine ⟨by simp [verify], fun hne => ?_⟩
  rw [verify, beq_eq_false_iff_ne]
  exact fun hc => hne (hinj hc)

/-- Witness for C4 at two concrete distinct secrets. -/
theorem secret_hashlock_roundtrip_witness :
    verify sampleSecret (commit sampleSecret) = true ∧
      verify [3, 141, 60] (commit sampleSecret) = false :=
  ⟨(secret_hashlock_roundtrip sampleSecret [3, 141, 60]).1,
   (secret_hashlock_roundtrip sampleSecret [3, 141, 60]).2 (by decide)⟩

/-- C3: the Timelock Policy compute(now, duration) is a pure function
returning initiator_timelock = now + duration and acceptor_timelock =
now + duration/2, every computed pair satisfies initiator_timelock >
acceptor_timelock, and every non-positive duration is rejected. -/
theorem timelock_policy_contract (now duration : Int) :
    (0 < duration →
      computeTimelocks now duration = .ok (now + duration, now + duration / 2)) ∧
    (∀ itl atl, computeTimelocks now duration = .ok (itl, atl) → itl > atl) ∧
    (duration ≤ 0 → computeTimelocks now duration = .error .validationError) := by
  refine ⟨fun hpos => ?_, fun itl atl h => ?_, fun hle => ?_⟩
  · have hnot : ¬ duration ≤ 0 := by omega
    simp [computeTimelocks, hnot]
  · rw [computeTimelocks] at h
    split at h
    · cases h
    · rename_i hnot
      obtain ⟨h1, h2⟩ := by simpa using h
      omega
  · simp [computeTimelocks, hle]

/-- Witness for C3 at now = 1000 with durations 600 and -5. -/
theorem timelock_policy_contract_witness :
    computeTimelocks 1000 600 = .ok (1600, 1300) ∧
      (1600 : Int) > 1300 ∧
      computeTimelocks 1000 (-5) = .error .validationError := by
  refine ⟨?_, ?_, ?_⟩
  · exact (timelock_policy_contract 1000 600).1 (by decide)
  · exact (timelock_policy_contract 1000 600).2.1 1600 1300
      ((timelock_policy_contract 1000 600).1 (by decide))
  · exact (timelock_policy_contract 1000 (-5)).2.2 (by decide)

/-- Counterexample to C8 as stated: the status enum of the swap offer
type does not have nine members — its cardinality is eight. -/
theorem swap_status_not_nine : Fintype.card SwapStatus = 8 ∧ Fintype.card SwapStatus ≠ 9 := by
  decide

/-- C8 amended: the status field of a swap offer is a closed tagged
enum of exactly the eight statuses listed in section 4.1 — the listed
values are distinct, every status is one of them, and there are eight. -/
theorem swap_status_closed_eight :
    swapStatusValues.Nodup ∧ (∀ s : SwapStatus, s ∈ swapStatusValues) ∧
      swapStatusValues.length = 8 := by
  decide

/-- Counterexample to C9 as stated: neither the ApiClient of the
presentation layer nor the documented atomic REST surface contains any
cancel operation — every endpoint fails the cancel test. -/
theorem no_cancel_endpoint :
    apiClientEndpoints.all (fun e => !e.isCancel) = true ∧
      readmeAtomicEndpoints.all (fun e => !(pathLastIsCancel e.path)) = true := by
  decide

/-- C9 amended: the cancel_offer transition of the coordination model
moves any offered swap to cancelled with no ledger call, but the
presentation layer's API client exposes no operation invoking cancel
on atomic swap offers. -/
theorem cancel_model_only :
    (∀ ctx rec, rec.status = .offered →
      ∃ rec', stepRecord ctx .cancelOffer rec =
          (.ok (rec', .offerView (projection rec')), []) ∧
        rec'.status = .cancelled) ∧
    apiClientEndpoints.all (fun e => !e.isCancel) = true := by
  constructor
  · intro ctx rec hst
    refine ⟨{ rec with status := .cancelled }, ?_, rfl⟩
    simp [stepRecord, hst]
  · decide

/-- Witness for C9 amended at the sample offered record. -/
theorem cancel_model_only_witness :
    ∃ rec', stepRecord sampleCtx .cancelOffer sampleOffer =
        (.ok (rec', .offerView (projection rec')), []) ∧
      rec'.status = .cancelled :=
  cancel_model_only.1 sampleCtx sampleOffer rfl

/-- C10: whenever the offering amount or the wanted amount parses to a
non-finite or non-positive number, or the offering amount exceeds the
fetched balance for the selected asset, handleSubmit sets an error
message and returns without calling apiClient.createOffer. -/
theorem handleSubmit_guards (ia aa : JsNum) (bal : Option Rat) (lbl : String)
    (h : (ia.isFinite = false ∨ jsLeZero ia = true) ∨
         (aa.isFinite = false ∨ jsLeZero aa = true) ∨
         (∃ b, bal = some b ∧ ia.isFinite = true ∧ jsGtRat ia b = true)) :
    (∃ msg, handleSubmit ia aa bal lbl = .errorReturn msg) ∧
      ∀ x y, handleSubmit ia aa bal lbl ≠ .createOfferCall x y := by
  have hmain : ∃ msg, handleSubmit ia aa bal lbl = .errorReturn msg := by
    rw [handleSubmit]
    split
    · exact ⟨_, rfl⟩
    · rename_i h1
      split
      · exact ⟨_, rfl⟩
      · rename_i h2
        split
        · exact ⟨_, rfl⟩
        · rename_i h3
          exfalso
          simp only [Bool.or_eq_true, Bool.not_eq_true'] at h1 h2
          rcases h with hia | haa | ⟨b, hb, hfin, hgt⟩
          · rcases hia with hx | hx
            · exact h1 (Or.inl (by simp [hx]))
            · exact h1 (Or.inr hx)
          · rcases haa with hx | hx
            · exact h2 (Or.inl (by simp [hx]))
            · exact h2 (Or.inr hx)
          · exact h3 (by simp [initiatorInsufficient, hb, hfin, hgt])
  obtain ⟨msg, hmsg⟩ := hmain
  refine ⟨⟨msg, hmsg⟩, fun x y hc => ?_⟩
  rw [hmsg] at hc
  cases hc

/-- Witness for C10: offering 100 against a fetched balance of 5
produces an error return and no createOffer call. -/
theorem handleSubmit_guards_witness :
    (∃ msg, handleSubmit (.finite 100) (.finite 1) (some 5) "DEPIX" = .errorReturn msg) ∧
      ∀ x y, handleSubmit (.finite 100) (.finite 1) (some 5) "DEPIX" ≠ .createOfferCall x y :=
  handleSubmit_guards (.finite 100) (.finite 1) (some 5) "DEPIX"
    (Or.inr (Or.inr ⟨5, rfl, rfl, by decide⟩))

/-- C1: a freshly created swap starts at offered, every successful
operation moves the swap's status along an edge of the section 4.1
transition graph, and no operation whatsoever succeeds on a swap in a
terminal state — the sequence of statuses a swap ever takes on is a
path through that graph. -/
theorem transition_graph_invariant :
    (∀ swapId secret now dur req rec,
      createOffer swapId secret now dur req = .ok rec → rec.status = .offered) ∧
    (∀ ctx act rec rec' resp calls,
      stepRecord ctx act rec = (.ok (rec', resp), calls) →
      legalEdge rec.status rec'.status = true) ∧
    (∀ ctx act rec, rec.status.isTerminal = true →
      ∃ e calls, stepRecord ctx act rec = (.error e, calls)) := by
  refine ⟨?_, ?_, ?_⟩
  · intro swapId secret now dur req rec h
    rw [createOffer] at h
    split at h
    · cases h
    · split at h
      · cases h
      · split at h
        · cases h
        · split at h
          · cases h
          · injection h with h
            subst h
            rfl
  · intro ctx act rec rec' resp calls h
    cases act <;> rw [stepRecord] at h
    case acceptOffer addr =>
      split at h
      · split at h
        · cases h
        · rename_i hst hv
          obtain ⟨h1, -⟩ := Prod.mk.injEq .. ▸ h
          injection h1 with h1
          obtain ⟨h2, -⟩ := Prod.mk.injEq .. ▸ h1
          simp [legalEdge, hst, ← h2]
      · cases h
    case lockInitiator =>
      split at h
      · rename_i hst
        obtain ⟨h1, -⟩ := Prod.mk.injEq .. ▸ h
        injection h1 with h1
        obtain ⟨h2, -⟩ := Prod.mk.injEq .. ▸ h1
        simp [legalEdge, hst, ← h2]
      · cases h
    case lockAcceptor =>
      split at h
      · rename_i hst
        obtain ⟨h1, -⟩ := Prod.mk.injEq .. ▸ h
        injection h1 with h1
        obtain ⟨h2, -⟩ := Prod.mk.injEq .. ▸ h1
        simp [legalEdge, hst, ← h2]
      · cases h
    case claimInitiator =>
      split at h
      · rename_i hst
        obtain ⟨h1, -⟩ := Prod.mk.injEq .. ▸ h
        injection h1 with h1
        obtain ⟨h2, -⟩ := Prod.mk.injEq .. ▸ h1
        simp [legalEdge, hst, ← h2]
      · cases h
    case claimAcceptor =>
      split at h
      · rename_i hst
        obtain ⟨h1, -⟩ := Prod.mk.injEq .. ▸ h
        injection h1 with h1
        obtain ⟨h2, -⟩ := Prod.mk.injEq .. ▸ h1
        simp [legalEdge, hst, ← h2]
      · cases h
    case cancelOffer =>
      split at h
      · rename_i hst
        obtain ⟨h1, -⟩ := Prod.mk.injEq .. ▸ h
        injection h1 with h1
        obtain ⟨h2, -⟩ := Prod.mk.injEq .. ▸ h1
        simp [legalEdge, hst, ← h2]
      · cases h
    case refund =>
      split at h
      · rename_i hst
        split at h
        · obtain ⟨h1, -⟩ := Prod.mk.injEq .. ▸ h
          injection h1 with h1
          obtain ⟨h2, -⟩ := Prod.mk.injEq .. ▸ h1
          simp [legalEdge, hst, ← h2]
        · cases h
      · split at h
        · rename_i hst hst2
          split at h
          · obtain ⟨h1, -⟩ := Prod.mk.injEq .. ▸ h
            injection h1 with h1
            obtain ⟨h2, -⟩ := Prod.mk.injEq .. ▸ h1
            simp [legalEdge, hst2, ← h2]
          · cases h
        · cases h
  · intro ctx act rec hterm
    cases hst : rec.status <;> rw [hst] at hterm <;>
      simp only [SwapStatus.isTerminal] at hterm
    case offered => cases hterm
    case accepted => cases hterm
    case initiatorLocked => cases hterm
    case acceptorLocked => cases hterm
    case initiatorClaimed => cases hterm
    case completed =>
      cases act <;> exact ⟨.illegalTransition, [], by rw [stepRecord]; simp [hst]⟩
    case refunded =>
      cases act <;> exact ⟨.illegalTransition, [], by rw [stepRecord]; simp [hst]⟩
    case cancelled =>
      cases act <;> exact ⟨.illegalTransition, [], by rw [stepRecord]; simp [hst]⟩

/-- Witness for C1 at concrete inputs: creation yields offered, an
accept step from offered lands on a graph edge, and the completed
sample record admits no successful operation. -/
theorem transition_graph_invariant_witness :
    ((createOffer "swap-1" sampleSecret 1000 600
        ⟨.btc, 1, .depix, 50, "addrA"⟩).map SwapRecord.status
      = .ok .offered) ∧
    legalEdge sampleOffer.status .accepted = true ∧
    (∃ e calls, stepRecord sampleCtx .cancelOffer (sampleAt .completed) = (.error e, calls)) := by
  refine ⟨?_, ?_, ?_⟩
  · have h := transition_graph_invariant.1 "swap-1" sampleSecret 1000 600
      ⟨.btc, 1, .depix, 50, "addrA"⟩
    cases hc : createOffer "swap-1" sampleSecret 1000 600
        ⟨.btc, 1, .depix, 50, "addrA"⟩ with
    | error e => cases hc ▸ (by decide : (createOffer "swap-1" sampleSecret 1000 600
        ⟨.btc, 1, .depix, 50, "addrA"⟩).isOk = true)
    | ok rec => simp [Except.map, h rec hc]
  · have h := transition_graph_invariant.2.1 sampleCtx (.acceptOffer "addrB") sampleOffer
    have hs : stepRecord sampleCtx (.acceptOffer "addrB") sampleOffer =
        (.ok ({ sampleOffer with
                  status := .accepted
                  acceptor_address := some "addrB"
                  accepted_at := some sampleCtx.now },
              .offerView (projection { sampleOffer with
                  status := .accepted
                  acceptor_address := some "addrB"
                  accepted_at := some sampleCtx.now })), []) := by
      rw [stepRecord]
      simp [sampleOffer]
    simpa using h _ _ _ hs
  · exact transition_graph_invariant.2.2 sampleCtx .cancelOffer (sampleAt .completed) rfl

/-- C2: an operation invoked against a mismatched current status fails
with IllegalTransition, performs no ledger call, and produces no
record update; moreover every controller failure — validation errors
included — leaves the registry exactly as it was and performs no
ledger call, so errors are detected before any ledger side-effect. -/
theorem illegal_transition_no_effect :
    (∀ ctx act rec, statusAllowed act rec.status = false →
      stepRecord ctx act rec = (.error .illegalTransition, [])) ∧
    (∀ ctx op reg e, (applyOp ctx op reg).response = .error e →
      applyOp ctx op reg = ⟨.error e, reg, []⟩) := by
  have happly : ∀ ctx op (reg : Registry) rec, reg op.swapId = some rec →
      applyOp ctx op reg = (match stepRecord ctx op.action rec with
        | (.error e, calls) => ⟨.error e, reg, calls⟩
        | (.ok (rec', resp), calls) => ⟨.ok resp, Registry.set op.swapId rec' reg, calls⟩) := by
    intro ctx op reg rec hl
    rw [applyOp, hl]
  have herr : ∀ ctx act rec e calls,
      stepRecord ctx act rec = (.error e, calls) → calls = [] := by
    intro ctx act rec e calls h
    cases act <;> rw [stepRecord] at h <;> repeat' split at h
    all_goals injection h with h1 h2
    all_goals first
      | exact h2.symm
      | injection h1
  refine ⟨?_, ?_⟩
  · intro ctx act rec hmis
    cases act <;> rw [stepRecord] <;> rw [statusAllowed] at hmis
    case acceptOffer addr =>
      rw [if_neg]
      intro hc
      rw [hc] at hmis
      simp at hmis
    case lockInitiator =>
      rw [if_neg]
      intro hc
      rw [hc] at hmis
      simp at hmis
    case lockAcceptor =>
      rw [if_neg]
      intro hc
      rw [hc] at hmis
      simp at hmis
    case claimInitiator =>
      rw [if_neg]
      intro hc
      rw [hc] at hmis
      simp at hmis
    case claimAcceptor =>
      rw [if_neg]
      intro hc
      rw [hc] at hmis
      simp at hmis
    case cancelOffer =>
      rw [if_neg]
      intro hc
      rw [hc] at hmis
      simp at hmis
    case refund =>
      simp only [Bool.or_eq_false_iff, decide_eq_false_iff_not] at hmis
      rw [if_neg hmis.1, if_neg hmis.2]
  · intro ctx op reg e h
    cases hl : reg op.swapId with
    | none =>
      have hn : applyOp ctx op reg = ⟨.error .notFound, reg, []⟩ := by
        rw [applyOp, hl]
      rw [hn] at h ⊢
      injection h with h2
      rw [← h2]
    | some rec =>
      rw [happly ctx op reg rec hl] at h ⊢
      cases hs : stepRecord ctx op.action rec with
      | mk res calls =>
        cases res with
        | error e' =>
          rw [hs] at h
          injection h with h2
          cases h2
          have hc := herr ctx op.action rec _ _ hs
          subst hc
          rfl
        | ok out =>
          obtain ⟨rec', resp⟩ := out
          rw [hs] at h
          injection h

/-- Witness for C2: locking the initiator leg of a swap still at
offered fails with IllegalTransition without touching the ledger, and
the registry-level invocation leaves the registry unchanged. -/
theorem illegal_transition_no_effect_witness :
    stepRecord sampleCtx .lockInitiator sampleOffer = (.error .illegalTransition, []) ∧
      applyOp sampleCtx ⟨"swap-1", .lockInitiator⟩ sampleRegistry =
        ⟨.error .illegalTransition, sampleRegistry, []⟩ := by
  have h1 := illegal_transition_no_effect.1 sampleCtx .lockInitiator sampleOffer (by decide)
  exact ⟨h1, illegal_transition_no_effect.2 sampleCtx ⟨"swap-1", .lockInitiator⟩ sampleRegistry
    .illegalTransition rfl⟩

/-- C5: refund on a swap in a locked status whose relevant timelock
has not elapsed fails with TimelockNotExpired and performs no ledger
call; a refund succeeds exactly when the status is initiator_locked or
acceptor_locked and the corresponding timelock has elapsed, in which
case the swap moves to refunded. -/
theorem refund_requires_expiry (ctx : Ctx) (rec : SwapRecord) :
    ((rec.status = .initiatorLocked ∨ rec.status = .acceptorLocked) →
      ¬ ctx.now > relevantTimelock rec →
      stepRecord ctx .refund rec = (.error .timelockNotExpired, [])) ∧
    (∀ out calls, stepRecord ctx .refund rec = (.ok out, calls) →
      (rec.status = .initiatorLocked ∨ rec.status = .acceptorLocked) ∧
      ctx.now > relevantTimelock rec ∧ out.1.status = .refunded) ∧
    ((rec.status = .initiatorLocked ∨ rec.status = .acceptorLocked) →
      ctx.now > relevantTimelock rec →
      ∃ rec' resp calls, stepRecord ctx .refund rec = (.ok (rec', resp), calls) ∧
        rec'.status = .refunded) := by
  refine ⟨?_, ?_, ?_⟩
  · intro hst hne
    rcases hst with hst | hst
    · rw [relevantTimelock, if_pos hst] at hne
      rw [stepRecord, if_pos hst, if_neg hne]
    · have hni : ¬ rec.status = .initiatorLocked := by rw [hst]; intro hc; cases hc
      rw [relevantTimelock, if_neg hni] at hne
      rw [stepRecord, if_neg hni, if_pos hst, if_neg hne]
  · intro out calls h
    rw [stepRecord] at h
    split at h
    · rename_i hst
      split at h
      · rename_i hgt
        refine ⟨Or.inl hst, ?_, ?_⟩
        · rwa [relevantTimelock, if_pos hst]
        · injection h with h1 h2
          injection h1 with h1
          rw [← h1]
      · cases h
    · split at h
      · rename_i hni hst
        split at h
        · rename_i hgt
          refine ⟨Or.inr hst, ?_, ?_⟩
          · rwa [relevantTimelock, if_neg hni]
          · injection h with h1 h2
            injection h1 with h1
            rw [← h1]
        · cases h
      · cases h
  · intro hst hgt
    rcases hst with hst | hst
    · rw [relevantTimelock, if_pos hst] at hgt
      refine ⟨{ rec with status := .refunded },
        .offerView (projection { rec with status := .refunded }),
        [.refund rec.initiator_asset], ?_, rfl⟩
      rw [stepRecord, if_pos hst, if_pos hgt]
    · have hni : ¬ rec.status = .initiatorLocked := by rw [hst]; intro hc; cases hc
      rw [relevantTimelock, if_neg hni] at hgt
      refine ⟨{ rec with status := .refunded },
        .offerView (projection { rec with status := .refunded }),
        [.refund rec.initiator_asset, .refund rec.acceptor_asset], ?_, rfl⟩
      rw [stepRecord, if_neg hni, if_pos hst, if_pos hgt]

/-- Witness for C5: at clock 1200 the initiator-locked sample (timelock
1600) cannot be refunded; at clock 2000 it can, moving to refunded. -/
theorem refund_requires_expiry_witness :
    stepRecord ctxEarly .refund (sampleAt .initiatorLocked) = (.error .timelockNotExpired, []) ∧
      ∃ rec' resp calls,
        stepRecord sampleCtx .refund (sampleAt .initiatorLocked) = (.ok (rec', resp), calls) ∧
          rec'.status = .refunded := by
  constructor
  · exact (refund_requires_expiry ctxEarly (sampleAt .initiatorLocked)).1
      (Or.inl rfl) (by decide)
  · exact (refund_requires_expiry sampleCtx (sampleAt .initiatorLocked)).2.2
      (Or.inl rfl) (by decide)

/-- C6: on a well-formed swap at acceptor_locked, claim_initiator
succeeds, moves the swap to initiator_claimed, and returns the
status/secret/swap_id response whose secret is non-empty and commits
to the swap's hashlock; creation establishes well-formedness from a
non-empty secret, every successful step preserves it, and no operation
other than claim_initiator ever carries a secret in its response. -/
theorem claim_initiator_reveals_secret :
    (∀ ctx rec, WellFormed rec → rec.status = .acceptorLocked →
      stepRecord ctx .claimInitiator rec =
        (.ok ({ rec with status := .initiatorClaimed },
          .claimInitiatorResponse .initiatorClaimed rec.secret rec.swap_id),
         [.claim rec.acceptor_asset rec.secret]) ∧
      rec.secret ≠ [] ∧ commit rec.secret = rec.hashlock) ∧
    (∀ swapId secret now dur req rec, secret ≠ [] →
      createOffer swapId secret now dur req = .ok rec → WellFormed rec) ∧
    (∀ ctx act rec rec' resp calls, WellFormed rec →
      stepRecord ctx act rec = (.ok (rec', resp), calls) → WellFormed rec') ∧
    (∀ ctx act rec rec' resp calls, act ≠ .claimInitiator →
      stepRecord ctx act rec = (.ok (rec', resp), calls) → responseSecret resp = none) := by
  refine ⟨?_, ?_, ?_, ?_⟩
  · intro ctx rec hwf hst
    refine ⟨?_, hwf.2, hwf.1.symm⟩
    rw [stepRecord, if_pos hst]
  · intro swapId secret now dur req rec hne h
    rw [createOffer] at h
    split at h
    · cases h
    · split at h
      · cases h
      · split at h
        · cases h
        · split at h
          · cases h
          · injection h with h
            subst h
            exact ⟨rfl, hne⟩
  · intro ctx act rec rec' resp calls hwf h
    have hsec : rec'.secret = rec.secret ∧ rec'.hashlock = rec.hashlock := by
      cases act <;> rw [stepRecord] at h <;> repeat' split at h
      all_goals injection h with h1 h2
      all_goals first
        | (injection h1 with h1
           obtain ⟨h3, -⟩ := Prod.mk.injEq .. ▸ h1
           rw [← h3]
           exact ⟨rfl, rfl⟩)
        | injection h1
    exact ⟨hsec.2 ▸ hsec.1 ▸ hwf.1, hsec.1 ▸ hwf.2⟩
  · intro ctx act rec rec' resp calls hact h
    cases act <;> rw [stepRecord] at h <;> repeat' split at h
    all_goals first
      | exact absurd rfl hact
      | (injection h with h1 h2
         first
          | (injection h1 with h1
             obtain ⟨-, h3⟩ := Prod.mk.injEq .. ▸ h1
             rw [← h3]
             rfl)
          | injection h1)

/-- Witness for C6 at the sample record in acceptor_locked status. -/
theorem claim_initiator_reveals_secret_witness :
    stepRecord sampleCtx .claimInitiator (sampleAt .acceptorLocked) =
      (.ok ({ sampleAt .acceptorLocked with status := .initiatorClaimed },
        .claimInitiatorResponse .initiatorClaimed sampleSecret "swap-1"),
       [.claim .depix sampleSecret]) ∧
    sampleSecret ≠ [] ∧ commit sampleSecret = commit sampleSecret := by
  have h := claim_initiator_reveals_secret.1 sampleCtx (sampleAt .acceptorLocked)
    ⟨rfl, by decide⟩ rfl
  exact h

/-- Unfolding lemma for applyOp when the swap_id resolves to a record. -/
theorem applyOp_some_step (ctx : Ctx) (sid : String) (act : Action) (reg : Registry)
    (rec : SwapRecord) (hl : reg sid = some rec) :
    applyOp ctx ⟨sid, act⟩ reg = (match stepRecord ctx act rec with
      | (.error e, calls) => ⟨.error e, reg, calls⟩
      | (.ok (rec', resp), calls) => ⟨.ok resp, Registry.set sid rec' reg, calls⟩) := by
  rw [applyOp]
  show (match reg sid with
    | none => _
    | some rec => _) = _
  rw [hl]

/-- C7: two accept_offer invocations racing on the same offered swap —
serialised in either order by the registry's atomic
compare_and_transition, here taken with caller A first — end with
exactly one success and one IllegalTransition failure: the first
caller wins, the swap is accepted with the winner's address, and the
loser's call changes nothing, so there is never a double-accept or a
lost update. -/
theorem concurrent_accept_once (ctx1 ctx2 : Ctx) (reg : Registry)
    (sid addrA addrB : String) (rec : SwapRecord)
    (hreg : reg sid = some rec) (hst : rec.status = .offered)
    (hA1 : addrA ≠ "") (hA2 : addrA ≠ rec.initiator_address)
    (hB1 : addrB ≠ "") (hB2 : addrB ≠ rec.initiator_address) :
    ∃ recA respA,
      applyOp ctx1 ⟨sid, .acceptOffer addrA⟩ reg =
        ⟨.ok respA, Registry.set sid recA reg, []⟩ ∧
      recA.status = .accepted ∧ recA.acceptor_address = some addrA ∧
      applyOp ctx2 ⟨sid, .acceptOffer addrB⟩ (Registry.set sid recA reg) =
        ⟨.error .illegalTransition, Registry.set sid recA reg, []⟩ ∧
      Registry.set sid recA reg sid = some recA := by
  obtain ⟨recA, hdef⟩ : ∃ recA, recA =
      { rec with
        status := SwapStatus.accepted
        acceptor_address := some addrA
        accepted_at := some ctx1.now } := ⟨_, rfl⟩
  have hstep1 : stepRecord ctx1 (.acceptOffer addrA) rec =
      (.ok (recA, .offerView (projection recA)), []) := by
    rw [hdef, stepRecord, if_pos hst, if_neg]
    rintro (hc | hc)
    · exact hA1 hc
    · exact hA2 hc
  have hstA : recA.status = .accepted := by rw [hdef]
  have haddr : recA.acceptor_address = some addrA := by rw [hdef]
  have hlook : Registry.set sid recA reg sid = some recA := by
    rw [Registry.set, if_pos rfl]
  refine ⟨recA, .offerView (projection recA), ?_, hstA, haddr, ?_, hlook⟩
  · rw [applyOp_some_step ctx1 sid (.acceptOffer addrA) reg rec hreg, hstep1]
  · have hstep2 : stepRecord ctx2 (.acceptOffer addrB) recA =
        (.error .illegalTransition, []) := by
      rw [stepRecord, if_neg]
      rw [hstA]
      intro hc
      cases hc
    rw [applyOp_some_step ctx2 sid (.acceptOffer addrB)
      (Registry.set sid recA reg) recA hlook, hstep2]

/-- Witness for C7 at the sample registry with two concrete distinct
acceptor addresses. -/
theorem concurrent_accept_once_witness :
    ∃ recA respA,
      applyOp sampleCtx ⟨"swap-1", .acceptOffer "addrB"⟩ sampleRegistry =
        ⟨.ok respA, Registry.set "swap-1" recA sampleRegistry, []⟩ ∧
      recA.status = .accepted ∧ recA.acceptor_address = some "addrB" ∧
      applyOp ctxEarly ⟨"swap-1", .acceptOffer "addrC"⟩
          (Registry.set "swap-1" recA sampleRegistry) =
        ⟨.error .illegalTransition, Registry.set "swap-1" recA sampleRegistry, []⟩ ∧
      Registry.set "swap-1" recA sampleRegistry "swap-1" = some recA :=
  concurrent_accept_once sampleCtx ctxEarly sampleRegistry "swap-1" "addrB" "addrC"
    sampleOffer rfl rfl (by decide) (by decide) (by decide) (by decide)

end ChainBridge
